import Mathlib

/-!
# Verification of the `core_affinity` crate (src/lib.rs)

Shallow embedding of the crate's per-platform backends. Each backend is
modelled as pure functions over an explicit host/kernel state:

* masks (`cpu_set_t`, `cpuset_t`, the Windows `DWORD_PTR` mask) are `Nat`
  bitmasks, bit `i` meaning core `i` is in the set;
* the kernel's get-affinity query is a field of the host state (its success
  flag plus the mask it would report);
* the kernel's set-affinity call is a state transition, modelled from the
  spec: the kernel deterministically accepts or rejects a requested mask
  (`accepts`), on success the thread's observable affinity becomes the
  requested mask, on failure the state is unchanged (spec section 7: a failed
  pin leaves the thread's affinity as it was; calls are not transiently
  failing).

The scanning loops, mask construction and result-code tests are translated
directly from src/lib.rs.
-/

set_option maxRecDepth 10000

/-- `CoreId` from src/lib.rs (line 62): a CPU core identifier. -/
structure CoreId where
  id : Nat
deriving Repr, DecidableEq

/-- The list of `CoreId`s obtained by scanning bit positions `0..maxBits`
of mask `m` in ascending order and keeping the set bits — the body of the
`for i in 0..MAX { if ISSET { push } }` loops of `get_core_ids`. -/
def coreIdsOfMask (maxBits : Nat) (m : Nat) : List CoreId :=
  ((List.range maxBits).filter (fun i => m.testBit i)).map (fun i => { id := i })

/-- Number of set bits of `m` strictly below position `maxBits`. -/
def maskCount (maxBits : Nat) (m : Nat) : Nat :=
  ((List.range maxBits).filter (fun i => m.testBit i)).length

-- Linux Section (mod `linux`, src/lib.rs lines 80-201): the bitmask backend.

namespace linux

/-- glibc's `CPU_SETSIZE`: a `cpu_set_t` holds 1024 bits. -/
def CPU_SETSIZE : Nat := 1024

/-- `libc::cpu_set_t`, as its bit content. -/
structure cpu_set_t where
  bits : Nat
deriving Repr, DecidableEq

/-- `libc::CPU_ISSET` for an in-range position. -/
def CPU_ISSET (i : Nat) (s : cpu_set_t) : Bool := s.bits.testBit i

/-- `libc::CPU_SET` for an in-range position: set bit `i`.
(The libc macro's behaviour at `i ≥ CPU_SETSIZE` is not modelled; every
theorem using this at a variable position restricts it to `i < CPU_SETSIZE`.) -/
def CPU_SET (i : Nat) (s : cpu_set_t) : cpu_set_t := { bits := s.bits ||| 2 ^ i }

/-- `new_cpu_set` (line 139): the all-zero `cpu_set_t`. -/
def new_cpu_set : cpu_set_t := { bits := 0 }

/-- Host/kernel state seen by the Linux backend.
`thread_mask` is the calling thread's current kernel affinity mask,
`get_ok` whether `sched_getaffinity` succeeds, `accepts` which requested
masks `sched_setaffinity` accepts (modelled from the spec: deterministic,
a function of the requested mask alone), `num_cpus` the OS logical CPU
count reported by the `num_cpus` collaborator. -/
structure Host where
  thread_mask : Nat
  get_ok : Bool
  accepts : Nat → Bool
  num_cpus : Nat

/-- Modelled from the spec: `sched_getaffinity(0, …)` — reports the calling
thread's current affinity mask, return code 0 on success. -/
def sched_getaffinity (h : Host) : Int × cpu_set_t :=
  if h.get_ok then (0, { bits := h.thread_mask }) else (-1, new_cpu_set)

/-- Modelled from the spec: `sched_setaffinity(0, …, set)` — on success
(return code 0) the thread's affinity becomes exactly `set`; on failure
(nonzero return) the state is unchanged (spec section 7). -/
def sched_setaffinity (h : Host) (set : cpu_set_t) : Int × Host :=
  if h.accepts set.bits then (0, { h with thread_mask := set.bits }) else (-1, h)

/-- `get_affinity_mask` (lines 121-137). -/
def get_affinity_mask (h : Host) : Option cpu_set_t :=
  let res := sched_getaffinity h
  if res.1 = 0 then some res.2 else none

/-- `linux::get_core_ids` (lines 88-103): decode the queried mask into
ascending `CoreId`s, or `none` when the query failed. -/
def get_core_ids (h : Host) : Option (List CoreId) :=
  match get_affinity_mask h with
  | some full_set => some (coreIdsOfMask CPU_SETSIZE full_set.bits)
  | none => none

/-- `linux::set_for_current` (lines 105-119): build a one-bit set, invoke
`sched_setaffinity`, return whether the call returned 0.  The second
component is the host state after the kernel call. -/
def set_for_current (h : Host) (core_id : CoreId) : Bool × Host :=
  let set := CPU_SET core_id.id new_cpu_set
  let res := sched_setaffinity h set
  (res.1 = 0, res.2)

end linux

-- Windows Section (mod `windows`, src/lib.rs lines 205-309): the
-- mask-register backend.

namespace windows

/-- Rust's `u64` left shift `x << n` as compiled without overflow checks:
the shift amount is taken modulo the bit width (64).  With overflow checks
enabled (debug profile) a shift amount of 64 or more panics instead. -/
def rustShlU64 (x n : Nat) : Nat := (x <<< (n % 64)) % 2 ^ 64

/-- Host/kernel state seen by the Windows backend. `process_mask` is the
process affinity mask reported by `GetProcessAffinityMask`, `thread_mask`
the calling thread's current affinity mask (returned as the previous-mask
result of `SetThreadAffinityMask`), `get_ok` whether
`GetProcessAffinityMask` succeeds, `accepts` which requested masks
`SetThreadAffinityMask` accepts, `num_cpus` the OS logical CPU count. -/
structure Host where
  process_mask : Nat
  thread_mask : Nat
  get_ok : Bool
  accepts : Nat → Bool
  num_cpus : Nat

/-- Modelled from the spec: `GetProcessAffinityMask` — nonzero result on
success, filling in the process mask. -/
def GetProcessAffinityMask (h : Host) : Int × Nat :=
  if h.get_ok then (1, h.process_mask) else (0, 0)

/-- Modelled from the spec: `SetThreadAffinityMask(GetCurrentThread(), mask)`
— on success returns the thread's previous (nonzero) affinity mask and
installs `mask`; on failure returns 0 and changes nothing (spec section 7). -/
def SetThreadAffinityMask (h : Host) (mask : Nat) : Nat × Host :=
  if h.accepts mask then (h.thread_mask, { h with thread_mask := mask }) else (0, h)

/-- `windows::get_affinity_mask` (lines 262-282). -/
def get_affinity_mask (h : Host) : Option Nat :=
  let res := GetProcessAffinityMask h
  if res.1 ≠ 0 then some res.2 else none

/-- `windows::get_core_ids` (lines 228-246): scan bits `0..64` of the
process mask in ascending order. -/
def get_core_ids (h : Host) : Option (List CoreId) :=
  match get_affinity_mask h with
  | some mask => some (coreIdsOfMask 64 mask)
  | none => none

/-- `windows::set_for_current` (lines 248-260): `mask = 1 << id` (a `u64`
shift), call `SetThreadAffinityMask` on the current thread, succeed iff the
previous-mask result is nonzero.  Second component: the state afterwards. -/
def set_for_current (h : Host) (core_id : CoreId) : Bool × Host :=
  let mask : Nat := rustShlU64 1 core_id.id
  let res := SetThreadAffinityMask h mask
  (res.1 ≠ 0, res.2)

end windows

-- MacOS Section (mod `macos`, src/lib.rs lines 313-409): the policy-hint
-- backend.

namespace macos

/-- Rust's `usize as i32` cast: truncate to 32 bits, reinterpret as signed. -/
def usizeAsI32 (n : Nat) : Int :=
  if n % 2 ^ 32 < 2 ^ 31 then (n % 2 ^ 32 : Int) else (n % 2 ^ 32 : Int) - 2 ^ 32

/-- Host/kernel state seen by the macOS backend. `affinity_tag` is the
calling thread's current advisory affinity tag, `accepts` which tags
`thread_policy_set` accepts, `num_cpus` the OS logical CPU count
(`num_cpus::get()`), the sole input of `get_core_ids`. -/
structure Host where
  affinity_tag : Int
  accepts : Int → Bool
  num_cpus : Nat

/-- Modelled from the spec: `thread_policy_set(pthread_self(),
THREAD_AFFINITY_POLICY, info, count)` — sets the thread's advisory affinity
tag; returns 0 (`KERN_SUCCESS`) on success, nonzero and no change on
failure. -/
def thread_policy_set (h : Host) (tag : Int) : Int × Host :=
  if h.accepts tag then (0, { h with affinity_tag := tag }) else (4, h)

/-- `macos::get_core_ids` (lines 360-364): always `Some`, the synthetic
ascending sequence `0..num_cpus`. -/
def get_core_ids (h : Host) : Option (List CoreId) :=
  some ((List.range h.num_cpus).map (fun n => { id := n }))

/-- `macos::set_for_current` (lines 366-384): tag = `core_id.id as integer_t`,
call `thread_policy_set`, succeed iff the result is 0. -/
def set_for_current (h : Host) (core_id : CoreId) : Bool × Host :=
  let res := thread_policy_set h (usizeAsI32 core_id.id)
  (res.1 = 0, res.2)

end macos

-- FreeBSD Section (mod `freebsd`, src/lib.rs lines 414-560): the cpuset
-- backend.  Same shape as the Linux backend, but the kernel calls are
-- `cpuset_getaffinity`/`cpuset_setaffinity` with target
-- `(CPU_LEVEL_WHICH, CPU_WHICH_TID, -1)` = the current thread.

namespace freebsd

/-- FreeBSD's `CPU_SETSIZE`: a `cpuset_t` holds 256 bits. -/
def CPU_SETSIZE : Nat := 256

/-- `libc::cpuset_t`, as its bit content. -/
structure cpuset_t where
  bits : Nat
deriving Repr, DecidableEq

/-- `libc::CPU_ISSET` for an in-range position. -/
def CPU_ISSET (i : Nat) (s : cpuset_t) : Bool := s.bits.testBit i

/-- `libc::CPU_SET` for an in-range position: set bit `i`. -/
def CPU_SET (i : Nat) (s : cpuset_t) : cpuset_t := { bits := s.bits ||| 2 ^ i }

/-- `new_cpu_set` (line 498): the all-zero `cpuset_t`. -/
def new_cpu_set : cpuset_t := { bits := 0 }

/-- Host/kernel state seen by the FreeBSD backend (same reading as
`linux.Host`). -/
structure Host where
  thread_mask : Nat
  get_ok : Bool
  accepts : Nat → Bool
  num_cpus : Nat

/-- Modelled from the spec: `cpuset_getaffinity(CPU_LEVEL_WHICH,
CPU_WHICH_TID, -1, …)` — reports the calling thread's affinity mask,
return code 0 on success. -/
def cpuset_getaffinity (h : Host) : Int × cpuset_t :=
  if h.get_ok then (0, { bits := h.thread_mask }) else (-1, new_cpu_set)

/-- Modelled from the spec: `cpuset_setaffinity(CPU_LEVEL_WHICH,
CPU_WHICH_TID, -1, …, set)` — on success (0) the thread's affinity becomes
`set`; on failure nothing changes (spec section 7). -/
def cpuset_setaffinity (h : Host) (set : cpuset_t) : Int × Host :=
  if h.accepts set.bits then (0, { h with thread_mask := set.bits }) else (-1, h)

/-- `freebsd::get_affinity_mask` (lines 475-496). -/
def get_affinity_mask (h : Host) : Option cpuset_t :=
  let res := cpuset_getaffinity h
  if res.1 = 0 then some res.2 else none

/-- `freebsd::get_core_ids` (lines 437-451). -/
def get_core_ids (h : Host) : Option (List CoreId) :=
  match get_affinity_mask h with
  | some full_set => some (coreIdsOfMask CPU_SETSIZE full_set.bits)
  | none => none

/-- `freebsd::set_for_current` (lines 453-473). -/
def set_for_current (h : Host) (core_id : CoreId) : Bool × Host :=
  let set := CPU_SET core_id.id new_cpu_set
  let res := cpuset_setaffinity h set
  (res.1 = 0, res.2)

end freebsd

-- Stub Section (src/lib.rs lines 562-586): unsupported hosts.

namespace stub

/-- Stub `get_core_ids_helper` (lines 572-574): always `None`. -/
def get_core_ids_helper : Option (List CoreId) := none

/-- Stub `set_for_current_helper` (lines 584-586): always `false`. -/
def set_for_current_helper (_core_id : CoreId) : Bool := false

end stub

-- Helper lemmas about the bit-scanning decode `coreIdsOfMask`.

theorem mem_coreIdsOfMask {maxBits m : Nat} (i : Nat) :
    CoreId.mk i ∈ coreIdsOfMask maxBits m ↔ i < maxBits ∧ m.testBit i := by
  simp [coreIdsOfMask, List.mem_filter, List.mem_range, CoreId.mk.injEq]

theorem pairwise_coreIdsOfMask (maxBits m : Nat) :
    (coreIdsOfMask maxBits m).Pairwise (fun a b => a.id < b.id) := by
  exact List.Pairwise.map _ (fun a b h => h)
    ((List.pairwise_lt_range maxBits).filter _)

theorem length_coreIdsOfMask (maxBits m : Nat) :
    (coreIdsOfMask maxBits m).length = maskCount maxBits m := by
  simp [coreIdsOfMask, maskCount]

theorem id_lt_of_mem_coreIdsOfMask {maxBits m : Nat} {c : CoreId}
    (h : c ∈ coreIdsOfMask maxBits m) : c.id < maxBits := by
  obtain ⟨i⟩ := c
  exact ((mem_coreIdsOfMask i).1 h).1

theorem coreIdsOfMask_eq_nil {maxBits m : Nat}
    (h : ∀ i, i < maxBits → m.testBit i = false) :
    coreIdsOfMask maxBits m = [] := by
  simp only [coreIdsOfMask, List.map_eq_nil_iff]
  rw [List.filter_eq_nil_iff]
  intro a ha
  simp [h a (List.mem_range.1 ha)]

theorem filter_range_lt (n N : Nat) (h : n ≤ N) :
    (List.range N).filter (fun i => decide (i < n)) = List.range n := by
  induction N with
  | zero => simp_all [Nat.le_zero.1 h]
  | succ N ih =>
    rcases Nat.lt_or_ge n (N + 1) with h1 | h1
    · rw [List.range_succ, List.filter_append, ih (Nat.lt_succ_iff.1 h1)]
      simp [Nat.not_lt.2 (Nat.lt_succ_iff.1 h1)]
    · have hn : n = N + 1 := Nat.le_antisymm h h1
      subst hn
      rw [List.filter_eq_self.2]
      intro a ha
      simp [List.mem_range.1 ha]

theorem maskCount_two_pow_sub_one {n N : Nat} (h : n ≤ N) :
    maskCount N (2 ^ n - 1) = n := by
  unfold maskCount
  have : ∀ i : Nat, ((2 ^ n - 1).testBit i) = decide (i < n) := fun i =>
    Nat.testBit_two_pow_sub_one n i
  simp only [this, filter_range_lt n N h, List.length_range]

-- Concrete hosts used to witness the theorems below on explicit inputs.

/-- A live Linux host: thread mask `101₂` (cores 0 and 2), working
`sched_getaffinity`, a kernel accepting any nonzero mask, 2 logical CPUs. -/
def linuxDemo : linux.Host :=
  { thread_mask := 5, get_ok := true, accepts := fun m => m != 0, num_cpus := 2 }

/-- A Linux host whose `sched_getaffinity` fails. -/
def linuxDemoFail : linux.Host :=
  { thread_mask := 5, get_ok := false, accepts := fun m => m != 0, num_cpus := 2 }

/-- A Linux host externally restricted to core 0 of its 2 logical CPUs. -/
def linuxRestricted : linux.Host :=
  { thread_mask := 1, get_ok := true, accepts := fun m => m != 0, num_cpus := 2 }

/-- A live FreeBSD host, mirror of `linuxDemo`. -/
def freebsdDemo : freebsd.Host :=
  { thread_mask := 5, get_ok := true, accepts := fun m => m != 0, num_cpus := 2 }

/-- A FreeBSD host whose `cpuset_getaffinity` fails. -/
def freebsdDemoFail : freebsd.Host :=
  { thread_mask := 5, get_ok := false, accepts := fun m => m != 0, num_cpus := 2 }

/-- A live Windows host: process mask `101₂`, current thread mask `11₂`,
working queries, a kernel accepting any nonzero mask, 2 logical CPUs. -/
def winDemo : windows.Host :=
  { process_mask := 5, thread_mask := 3, get_ok := true,
    accepts := fun m => m != 0, num_cpus := 2 }

/-- A live macOS host with 4 logical CPUs, accepting every affinity tag. -/
def macDemo : macos.Host :=
  { affinity_tag := 0, accepts := fun _ => true, num_cpus := 4 }

-- Claim theorems.

/-- C1: on the bitmask (Linux) and cpuset (FreeBSD) backends, `get_core_ids`
queries the calling thread's current kernel affinity mask; on query success
it returns exactly one `CoreId` per set bit, scanning every bit position
from 0 up to the platform maximum (`CPU_SETSIZE`) in ascending order; on
query failure it returns `none` with no partial results; and a mask with no
set bits yields `some []`, a success. -/
theorem C1_bitmask_cpuset_enumerate (hL : linux.Host) (hF : freebsd.Host) :
    ((∀ s, linux.get_affinity_mask hL = some s →
        linux.get_core_ids hL = some (coreIdsOfMask linux.CPU_SETSIZE s.bits) ∧
        (∀ i, CoreId.mk i ∈ coreIdsOfMask linux.CPU_SETSIZE s.bits ↔
            i < linux.CPU_SETSIZE ∧ linux.CPU_ISSET i s = true) ∧
        (coreIdsOfMask linux.CPU_SETSIZE s.bits).Pairwise (fun a b => a.id < b.id) ∧
        ((∀ i, i < linux.CPU_SETSIZE → linux.CPU_ISSET i s = false) →
            linux.get_core_ids hL = some [])) ∧
      (linux.get_affinity_mask hL = none → linux.get_core_ids hL = none)) ∧
    ((∀ s, freebsd.get_affinity_mask hF = some s →
        freebsd.get_core_ids hF = some (coreIdsOfMask freebsd.CPU_SETSIZE s.bits) ∧
        (∀ i, CoreId.mk i ∈ coreIdsOfMask freebsd.CPU_SETSIZE s.bits ↔
            i < freebsd.CPU_SETSIZE ∧ freebsd.CPU_ISSET i s = true) ∧
        (coreIdsOfMask freebsd.CPU_SETSIZE s.bits).Pairwise (fun a b => a.id < b.id) ∧
        ((∀ i, i < freebsd.CPU_SETSIZE → freebsd.CPU_ISSET i s = false) →
            freebsd.get_core_ids hF = some [])) ∧
      (freebsd.get_affinity_mask hF = none → freebsd.get_core_ids hF = none)) := by
  constructor
  · constructor
    · intro s hs
      refine ⟨by simp [linux.get_core_ids, hs], fun i => mem_coreIdsOfMask i,
        pairwise_coreIdsOfMask _ _, fun hz => ?_⟩
      simp [linux.get_core_ids, hs, coreIdsOfMask_eq_nil hz]
    · intro hn
      simp [linux.get_core_ids, hn]
  · constructor
    · intro s hs
      refine ⟨by simp [freebsd.get_core_ids, hs], fun i => mem_coreIdsOfMask i,
        pairwise_coreIdsOfMask _ _, fun hz => ?_⟩
      simp [freebsd.get_core_ids, hs, coreIdsOfMask_eq_nil hz]
    · intro hn
      simp [freebsd.get_core_ids, hn]

/-- Witness for C1 at explicit hosts: on `linuxDemo` (mask `101₂`) the
decode yields cores 0 and 2; on `freebsdDemoFail` the failed query yields
`none`. -/
theorem C1_witness :
    linux.get_core_ids linuxDemo = some [CoreId.mk 0, CoreId.mk 2] ∧
    freebsd.get_core_ids freebsdDemoFail = none := by
  have h := C1_bitmask_cpuset_enumerate linuxDemo freebsdDemoFail
  constructor
  · rw [(h.1.1 { bits := 5 } (by rfl)).1]
    rfl
  · exact h.2.2 (by rfl)

/-- C2: on the bitmask (Linux) and cpuset (FreeBSD) backends,
`set_for_current` builds an all-zero affinity set, sets exactly the single
bit at position `id`, invokes the thread-scoped set-affinity kernel call
with that set, and returns `true` iff the kernel call returned zero; the
success value depends only on the kernel's accept decision, never on a
read-back of the affinity state. -/
theorem C2_bitmask_cpuset_pin (hL : linux.Host) (hF : freebsd.Host) (c : CoreId)
    (_hcL : c.id < linux.CPU_SETSIZE) (_hcF : c.id < freebsd.CPU_SETSIZE) :
    ((∀ j, linux.CPU_ISSET j (linux.CPU_SET c.id linux.new_cpu_set) = true ↔ j = c.id) ∧
      ((linux.set_for_current hL c).1 = true ↔
        (linux.sched_setaffinity hL (linux.CPU_SET c.id linux.new_cpu_set)).1 = 0) ∧
      (linux.set_for_current hL c).2 =
        (linux.sched_setaffinity hL (linux.CPU_SET c.id linux.new_cpu_set)).2 ∧
      (∀ h2 : linux.Host, h2.accepts = hL.accepts →
        (linux.set_for_current h2 c).1 = (linux.set_for_current hL c).1)) ∧
    ((∀ j, freebsd.CPU_ISSET j (freebsd.CPU_SET c.id freebsd.new_cpu_set) = true ↔ j = c.id) ∧
      ((freebsd.set_for_current hF c).1 = true ↔
        (freebsd.cpuset_setaffinity hF (freebsd.CPU_SET c.id freebsd.new_cpu_set)).1 = 0) ∧
      (freebsd.set_for_current hF c).2 =
        (freebsd.cpuset_setaffinity hF (freebsd.CPU_SET c.id freebsd.new_cpu_set)).2 ∧
      (∀ h2 : freebsd.Host, h2.accepts = hF.accepts →
        (freebsd.set_for_current h2 c).1 = (freebsd.set_for_current hF c).1)) := by
  refine ⟨⟨fun j => ?_, ?_, rfl, fun h2 hacc => ?_⟩, ⟨fun j => ?_, ?_, rfl, fun h2 hacc => ?_⟩⟩
  · simp [linux.CPU_ISSET, linux.CPU_SET, linux.new_cpu_set, Nat.testBit_two_pow, eq_comm]
  · simp [linux.set_for_current]
  · simp only [linux.set_for_current, linux.sched_setaffinity, hacc, decide_eq_decide]
    split <;> simp
  · simp [freebsd.CPU_ISSET, freebsd.CPU_SET, freebsd.new_cpu_set, Nat.testBit_two_pow, eq_comm]
  · simp [freebsd.set_for_current]
  · simp only [freebsd.set_for_current, freebsd.cpuset_setaffinity, hacc, decide_eq_decide]
    split <;> simp

/-- Witness for C2 at core 3 on explicit hosts: the constructed one-bit set
has bit 3 set (both backends). -/
theorem C2_witness :
    linux.CPU_ISSET 3 (linux.CPU_SET 3 linux.new_cpu_set) = true ∧
    freebsd.CPU_ISSET 3 (freebsd.CPU_SET 3 freebsd.new_cpu_set) = true := by
  have h := C2_bitmask_cpuset_pin linuxDemo freebsdDemo (CoreId.mk 3)
    (by decide) (by decide)
  exact ⟨(h.1.1 3).2 rfl, (h.2.1 3).2 rfl⟩

/-- A strictly ascending `CoreId` list (by `id`) has no duplicates. -/
theorem nodup_of_pairwise_lt {l : List CoreId}
    (h : l.Pairwise (fun a b => a.id < b.id)) : l.Nodup :=
  h.imp fun hab he => absurd (he ▸ hab) (lt_irrefl _)

/-- C3: on every backend, whenever `get_core_ids` succeeds the returned
sequence is strictly ascending by id, hence duplicate-free. -/
theorem C3_ascending (hL : linux.Host) (hW : windows.Host) (hM : macos.Host)
    (hF : freebsd.Host) :
    (∀ l, linux.get_core_ids hL = some l →
        l.Pairwise (fun a b => a.id < b.id) ∧ l.Nodup) ∧
    (∀ l, windows.get_core_ids hW = some l →
        l.Pairwise (fun a b => a.id < b.id) ∧ l.Nodup) ∧
    (∀ l, macos.get_core_ids hM = some l →
        l.Pairwise (fun a b => a.id < b.id) ∧ l.Nodup) ∧
    (∀ l, freebsd.get_core_ids hF = some l →
        l.Pairwise (fun a b => a.id < b.id) ∧ l.Nodup) ∧
    (∀ l, stub.get_core_ids_helper = some l →
        l.Pairwise (fun a b => a.id < b.id) ∧ l.Nodup) := by
  refine ⟨fun l hl => ?_, fun l hl => ?_, fun l hl => ?_, fun l hl => ?_, fun l hl => ?_⟩
  · simp only [linux.get_core_ids] at hl
    split at hl
    · cases hl
      exact ⟨pairwise_coreIdsOfMask _ _, nodup_of_pairwise_lt (pairwise_coreIdsOfMask _ _)⟩
    · cases hl
  · simp only [windows.get_core_ids] at hl
    split at hl
    · cases hl
      exact ⟨pairwise_coreIdsOfMask _ _, nodup_of_pairwise_lt (pairwise_coreIdsOfMask _ _)⟩
    · cases hl
  · simp only [macos.get_core_ids] at hl
    cases hl
    have hp : ((List.range hM.num_cpus).map (fun i => CoreId.mk i)).Pairwise
        (fun a b => a.id < b.id) :=
      List.Pairwise.map _ (fun a b h => h) (List.pairwise_lt_range hM.num_cpus)
    exact ⟨hp, nodup_of_pairwise_lt hp⟩
  · simp only [freebsd.get_core_ids] at hl
    split at hl
    · cases hl
      exact ⟨pairwise_coreIdsOfMask _ _, nodup_of_pairwise_lt (pairwise_coreIdsOfMask _ _)⟩
    · cases hl
  · exact absurd hl (by simp [stub.get_core_ids_helper])

/-- Witness for C3: the list enumerated on `linuxDemo` is ascending and
duplicate-free. -/
theorem C3_witness :
    [CoreId.mk 0, CoreId.mk 2].Pairwise (fun a b => a.id < b.id) ∧
    [CoreId.mk 0, CoreId.mk 2].Nodup := by
  have h := C3_ascending linuxDemo winDemo macDemo freebsdDemo
  exact h.1 [CoreId.mk 0, CoreId.mk 2] (by rfl)

/-- C4 counterexample: on a Linux host whose thread affinity mask was
externally restricted to core 0 while the OS reports 2 logical CPUs,
`get_core_ids` succeeds with a sequence of length 1 ≠ 2: the length matches
the set-bit count of the thread mask, not the logical CPU count. -/
theorem C4_counterexample :
    linux.get_core_ids linuxRestricted = some [CoreId.mk 0] ∧
    linuxRestricted.num_cpus = 2 ∧ ([CoreId.mk 0] : List CoreId).length ≠ 2 := by
  exact ⟨by rfl, rfl, by decide⟩

/-- C4 amended: where `get_core_ids` succeeds, the length of the returned
sequence equals the number of set bits (below the scan bound) of the
queried mask on the bitmask, cpuset and mask-register backends — which
equals the OS logical CPU count exactly when the mask consists of the first
`num_cpus` bits — and equals the OS logical CPU count unconditionally on
the policy-hint backend. -/
theorem C4_amended_length (hL : linux.Host) (hW : windows.Host) (hM : macos.Host)
    (hF : freebsd.Host) :
    (∀ l, linux.get_core_ids hL = some l →
        l.length = maskCount linux.CPU_SETSIZE hL.thread_mask ∧
        (hL.thread_mask = 2 ^ hL.num_cpus - 1 → hL.num_cpus ≤ linux.CPU_SETSIZE →
          l.length = hL.num_cpus)) ∧
    (∀ l, windows.get_core_ids hW = some l →
        l.length = maskCount 64 hW.process_mask ∧
        (hW.process_mask = 2 ^ hW.num_cpus - 1 → hW.num_cpus ≤ 64 →
          l.length = hW.num_cpus)) ∧
    (∀ l, macos.get_core_ids hM = some l → l.length = hM.num_cpus) ∧
    (∀ l, freebsd.get_core_ids hF = some l →
        l.length = maskCount freebsd.CPU_SETSIZE hF.thread_mask ∧
        (hF.thread_mask = 2 ^ hF.num_cpus - 1 → hF.num_cpus ≤ freebsd.CPU_SETSIZE →
          l.length = hF.num_cpus)) := by
  refine ⟨fun l hl => ?_, fun l hl => ?_, fun l hl => ?_, fun l hl => ?_⟩
  · by_cases hg : hL.get_ok = true <;>
      simp [linux.get_core_ids, linux.get_affinity_mask, linux.sched_getaffinity, hg] at hl
    subst hl
    refine ⟨length_coreIdsOfMask _ _, fun hm hn => ?_⟩
    rw [length_coreIdsOfMask, hm, maskCount_two_pow_sub_one hn]
  · by_cases hg : hW.get_ok = true <;>
      simp [windows.get_core_ids, windows.get_affinity_mask,
        windows.GetProcessAffinityMask, hg] at hl
    subst hl
    refine ⟨length_coreIdsOfMask _ _, fun hm hn => ?_⟩
    rw [length_coreIdsOfMask, hm, maskCount_two_pow_sub_one hn]
  · simp only [macos.get_core_ids, Option.some.injEq] at hl
    subst hl
    simp
  · by_cases hg : hF.get_ok = true <;>
      simp [freebsd.get_core_ids, freebsd.get_affinity_mask,
        freebsd.cpuset_getaffinity, hg] at hl
    subst hl
    refine ⟨length_coreIdsOfMask _ _, fun hm hn => ?_⟩
    rw [length_coreIdsOfMask, hm, maskCount_two_pow_sub_one hn]

/-- Witness for the amended C4 at explicit hosts: on `linuxRestricted`
the enumerated length equals the mask's set-bit count, 1. -/
theorem C4_amended_witness :
    maskCount linux.CPU_SETSIZE linuxRestricted.thread_mask = 1 := by
  have h := C4_amended_length linuxRestricted winDemo macDemo freebsdDemo
  have h1 := (h.1 [CoreId.mk 0] (by rfl)).1
  simpa using h1.symm

/-- C5: the policy-hint (macOS) backend's `get_core_ids` always succeeds
and returns the synthetic ascending sequence `0, 1, …, num_cpus - 1` taken
from the OS logical-processor count, independent of any affinity state in
effect on the calling thread. -/
theorem C5_policy_hint_enumerate (h h2 : macos.Host) (hn : h2.num_cpus = h.num_cpus) :
    macos.get_core_ids h ≠ none ∧
    macos.get_core_ids h = some ((List.range h.num_cpus).map (fun n => CoreId.mk n)) ∧
    (∀ l, macos.get_core_ids h = some l →
        l.length = h.num_cpus ∧
        ∀ i, i < h.num_cpus → l[i]? = some (CoreId.mk i)) ∧
    macos.get_core_ids h2 = macos.get_core_ids h := by
  refine ⟨by simp [macos.get_core_ids], rfl, fun l hl => ?_, by simp [macos.get_core_ids, hn]⟩
  simp only [macos.get_core_ids, Option.some.injEq] at hl
  subst hl
  refine ⟨by simp, fun i hi => ?_⟩
  simp [List.getElem?_map, List.getElem?_range, hi]

/-- Witness for C5: on `macDemo` (4 logical CPUs) enumeration yields
cores 0, 1, 2, 3. -/
theorem C5_witness :
    macos.get_core_ids macDemo =
      some [CoreId.mk 0, CoreId.mk 1, CoreId.mk 2, CoreId.mk 3] := by
  have h := C5_policy_hint_enumerate macDemo macDemo rfl
  rw [h.2.1]
  rfl

/-- C6: the mask-register (Windows) backend's `set_for_current` builds the
64-bit mask with only bit `id` set (`1 << id`), invokes
`SetThreadAffinityMask` on the current thread with it, and returns `true`
iff the call's previous-mask result is nonzero. -/
theorem C6_mask_register_pin (h : windows.Host) (c : CoreId) (hc : c.id < 64) :
    windows.rustShlU64 1 c.id = 2 ^ c.id ∧
    ((windows.set_for_current h c).1 = true ↔
      (windows.SetThreadAffinityMask h (2 ^ c.id)).1 ≠ 0) ∧
    (windows.set_for_current h c).2 = (windows.SetThreadAffinityMask h (2 ^ c.id)).2 := by
  have hshl : windows.rustShlU64 1 c.id = 2 ^ c.id := by
    unfold windows.rustShlU64
    rw [Nat.mod_eq_of_lt hc, Nat.shiftLeft_eq, one_mul, Nat.mod_eq_of_lt]
    exact Nat.pow_lt_pow_right (by norm_num) hc
  exact ⟨hshl, by simp [windows.set_for_current, hshl],
    by simp [windows.set_for_current, hshl]⟩

/-- Witness for C6 at core 5: the constructed mask is `2 ^ 5`. -/
theorem C6_witness : windows.rustShlU64 1 5 = 2 ^ 5 :=
  (C6_mask_register_pin winDemo (CoreId.mk 5) (by decide)).1

/-- C7 counterexample: on the mask-register backend under a live kernel
(`winDemo`), pinning the out-of-range id 64 returns success (`true`), not a
backend-defined failure: the Rust `u64` shift `1 << 64` wraps (the release
profile masks the shift amount) to bit 0, a valid mask. -/
theorem C7_counterexample :
    (windows.set_for_current winDemo (CoreId.mk 64)).1 = true := by rfl

/-- C7 amended: an out-of-range id passed to `set_for_current` never causes
undefined behavior, but it is not guaranteed to produce a failure return:
on the mask-register backend the shift amount wraps modulo 64 (with
overflow checks enabled the shift panics instead), so `pin(id)` behaves
exactly like `pin(id mod 64)` and may succeed; on the policy-hint backend
the id is truncated to 32 bits (`as` cast) and the call proceeds with a
backend-defined result. -/
theorem C7_out_of_range (hW : windows.Host) (hM : macos.Host) (i : Nat) :
    windows.set_for_current hW (CoreId.mk i) =
      windows.set_for_current hW (CoreId.mk (i % 64)) ∧
    macos.set_for_current hM (CoreId.mk i) =
      macos.set_for_current hM (CoreId.mk (i % 2 ^ 32)) := by
  constructor
  · simp [windows.set_for_current, windows.rustShlU64]
  · simp [macos.set_for_current, macos.usizeAsI32]

/-- C8: the stub backend's `get_core_ids_helper` unconditionally returns
`none` and its `set_for_current_helper` unconditionally returns `false`,
for every `CoreId`, with no kernel state consulted or modified. -/
theorem C8_stub :
    stub.get_core_ids_helper = none ∧
    ∀ c : CoreId, stub.set_for_current_helper c = false :=
  ⟨rfl, fun _ => rfl⟩

/-- C9: pinning is idempotent on every backend — calling `set_for_current`
twice with the same `CoreId` leaves the host's observable affinity state
(thread mask, resp. affinity tag) equal to the state after one call. -/
theorem C9_pin_idempotent (hL : linux.Host) (hW : windows.Host) (hM : macos.Host)
    (hF : freebsd.Host) (c : CoreId) :
    (linux.set_for_current (linux.set_for_current hL c).2 c).2 =
      (linux.set_for_current hL c).2 ∧
    (windows.set_for_current (windows.set_for_current hW c).2 c).2 =
      (windows.set_for_current hW c).2 ∧
    (macos.set_for_current (macos.set_for_current hM c).2 c).2 =
      (macos.set_for_current hM c).2 ∧
    (freebsd.set_for_current (freebsd.set_for_current hF c).2 c).2 =
      (freebsd.set_for_current hF c).2 := by
  refine ⟨?_, ?_, ?_, ?_⟩
  · simp only [linux.set_for_current, linux.sched_setaffinity]
    by_cases hA : hL.accepts (linux.CPU_SET c.id linux.new_cpu_set).bits = true <;>
      simp [hA]
  · simp only [windows.set_for_current, windows.SetThreadAffinityMask]
    by_cases hA : hW.accepts (windows.rustShlU64 1 c.id) = true <;> simp [hA]
  · simp only [macos.set_for_current, macos.thread_policy_set]
    by_cases hA : hM.accepts (macos.usizeAsI32 c.id) = true <;> simp [hA]
  · simp only [freebsd.set_for_current, freebsd.cpuset_setaffinity]
    by_cases hA : hF.accepts (freebsd.CPU_SET c.id freebsd.new_cpu_set).bits = true <;>
      simp [hA]

/-- C10: every `CoreId` returned by a successful `get_core_ids` is strictly
below the backend's decode bound — `CPU_SETSIZE` on the bitmask and cpuset
backends, 64 on the mask-register backend, the OS logical CPU count on the
policy-hint backend. -/
theorem C10_id_bounds (hL : linux.Host) (hW : windows.Host) (hM : macos.Host)
    (hF : freebsd.Host) :
    (∀ l, linux.get_core_ids hL = some l → ∀ c ∈ l, c.id < linux.CPU_SETSIZE) ∧
    (∀ l, windows.get_core_ids hW = some l → ∀ c ∈ l, c.id < 64) ∧
    (∀ l, macos.get_core_ids hM = some l → ∀ c ∈ l, c.id < hM.num_cpus) ∧
    (∀ l, freebsd.get_core_ids hF = some l → ∀ c ∈ l, c.id < freebsd.CPU_SETSIZE) := by
  refine ⟨fun l hl c hc => ?_, fun l hl c hc => ?_, fun l hl c hc => ?_,
    fun l hl c hc => ?_⟩
  · simp only [linux.get_core_ids] at hl
    split at hl
    · cases hl; exact id_lt_of_mem_coreIdsOfMask hc
    · cases hl
  · simp only [windows.get_core_ids] at hl
    split at hl
    · cases hl; exact id_lt_of_mem_coreIdsOfMask hc
    · cases hl
  · simp only [macos.get_core_ids, Option.some.injEq] at hl
    subst hl
    obtain ⟨i, hi, rfl⟩ := List.mem_map.1 hc
    exact List.mem_range.1 hi
  · simp only [freebsd.get_core_ids] at hl
    split at hl
    · cases hl; exact id_lt_of_mem_coreIdsOfMask hc
    · cases hl

/-- Witness for C10: core 2 as enumerated on `linuxDemo` is below
`CPU_SETSIZE`. -/
theorem C10_witness : (CoreId.mk 2).id < linux.CPU_SETSIZE := by
  have h := C10_id_bounds linuxDemo winDemo macDemo freebsdDemo
  exact h.1 [CoreId.mk 0, CoreId.mk 2] (by rfl) (CoreId.mk 2) (by decide)
